import Mathlib

/-!
Shallow embedding of the terminal CalTodo application (src/app.py):
per-date task storage, the todo panel's highlighted-index handling,
the month-grid calendar, month navigation, the day-rollover tick and
JSON persistence, together with proofs of the specification claims.
-/

set_option maxHeartbeats 1000000

namespace CalTodo

/-- A task: `Task` dataclass in app.py (text plus a done flag, default false). -/
structure Task where
  text : String
  done : Bool
deriving DecidableEq, Repr

/-- A Gregorian calendar date as `datetime.date` (year, month, day). -/
structure Date where
  year : Int
  month : Nat
  day : Nat
deriving DecidableEq, Repr

/-- The in-memory task mapping `CalTodoApp._tasks_by_date`: a Python dict
from ISO date-key strings to task lists, modelled as an insertion-ordered
association list. -/
abbrev Store := List (String × List Task)

/-- Left-pad the decimal representation of `n` with zeros to width `w`. -/
def padNum (w : Nat) (n : Nat) : String :=
  let s := toString n
  (String.mk (List.replicate (w - s.length) '0')) ++ s

/-- Embeds `CalTodoApp._key_for_date`: `d.isoformat()`, i.e. zero-padded YYYY-MM-DD. -/
def keyForDate (d : Date) : String :=
  padNum 4 d.year.toNat ++ "-" ++ padNum 2 d.month ++ "-" ++ padNum 2 d.day

/-- Dict lookup `self._tasks_by_date[k]` (first matching key). -/
def lookupStore (s : Store) (k : String) : Option (List Task) :=
  (s.find? (fun p => p.1 == k)).map (·.2)

/-- The list `setdefault` returns for key `k` (existing bucket, or empty). -/
def getTasksList (s : Store) (k : String) : List Task :=
  (lookupStore s k).getD []

/-- The mutation `setdefault` performs: insert `(k, [])` at the end if `k`
is absent (Python dicts append new keys in insertion order). -/
def ensureKey (s : Store) (k : String) : Store :=
  if (lookupStore s k).isSome then s else s ++ [(k, [])]

/-- Replace the bucket stored under key `k` with `l`. -/
def setBucket (s : Store) (k : String) (l : List Task) : Store :=
  s.map (fun p => if p.1 == k then (p.1, l) else p)

/-- Embeds `CalTodoApp.get_tasks_for_date`: the returned list (the state effect of
its `setdefault` is `ensureKey`). -/
def getTasksForDate (s : Store) (d : Date) : List Task :=
  getTasksList s (keyForDate d)

/-- Embeds `CalTodoApp.add_task_for_date`: appends `Task(text=text, done=False)` to
the bucket `get_tasks_for_date` returns (creating the bucket if absent). -/
def addTaskForDate (s : Store) (d : Date) (text : String) : Store :=
  let k := keyForDate d
  setBucket (ensureKey s k) k (getTasksList s k ++ [⟨text, false⟩])

/-- Embeds `TodoPanel` selection state: `current_date` and `_highlight_index`. -/
structure PanelState where
  currentDate : Date
  highlightIndex : Nat
deriving DecidableEq, Repr

/-- Embeds `tasks[idx].done = not tasks[idx].done`: flip the done flag of the task
at index `i`, leaving every other task untouched. -/
def toggleAt : List Task → Nat → List Task
  | [], _ => []
  | t :: ts, 0 => { t with done := !t.done } :: ts
  | t :: ts, i + 1 => t :: toggleAt ts i

/-- Embeds `max(0, min(h, len(tasks) - 1))` for a non-negative `h`, with Python's
`-1` floor folded into Nat truncated subtraction (both yield 0 on empty). -/
def clampIdx (h : Nat) (len : Nat) : Nat :=
  min h (len - 1)

/-- Embeds `TodoPanel.action_toggle_task`: no-op on an empty bucket (after the
`setdefault` of `app_get_tasks`), else toggles the task at the clamped
highlight index.  `_highlight_index` itself is not reassigned. -/
def actionToggleTask (s : Store) (p : PanelState) : Store × PanelState :=
  let k := keyForDate p.currentDate
  let s1 := ensureKey s k
  let tasks := getTasksList s k
  if tasks.isEmpty then (s1, p)
  else
    let idx := clampIdx p.highlightIndex tasks.length
    (setBucket s1 k (toggleAt tasks idx), p)

/-- Embeds `TodoPanel.action_delete_task`: no-op on an empty bucket, else pops the
task at the clamped index and re-clamps `_highlight_index` against the new
(shorter) length. -/
def actionDeleteTask (s : Store) (p : PanelState) : Store × PanelState :=
  let k := keyForDate p.currentDate
  let s1 := ensureKey s k
  let tasks := getTasksList s k
  if tasks.isEmpty then (s1, p)
  else
    let idx := clampIdx p.highlightIndex tasks.length
    let tasks2 := tasks.eraseIdx idx
    (setBucket s1 k tasks2,
     { p with highlightIndex := clampIdx p.highlightIndex tasks2.length })

/-- Embeds `TodoPanel.set_date`: replaces `current_date` and refreshes the list
(whose `app_get_tasks` performs the `setdefault`); `_highlight_index` is
left unchanged. -/
def setDate (s : Store) (p : PanelState) (d : Date) : Store × PanelState :=
  (ensureKey s (keyForDate d), { p with currentDate := d })

/-- Python's `str.strip()`: drop whitespace from both ends. -/
def stripStr (s : String) : String :=
  String.mk
    (((s.data.dropWhile Char.isWhitespace).reverse.dropWhile
        Char.isWhitespace).reverse)

/-- Embeds `TodoPanel.on_input_submitted`: strip the submitted value; only a
non-empty remainder is added (empty submits just move focus). -/
def submitInput (s : Store) (p : PanelState) (value : String) : Store :=
  let text := stripStr value
  if text.isEmpty then s else addTaskForDate s p.currentDate text

/-- One JSON task object as read back by `_load_all_tasks`: either field may
be missing from the persisted entry. -/
structure TaskJson where
  text : Option String
  done : Option Bool
deriving DecidableEq, Repr

/-- A parsed persisted document: date key to list of task objects. -/
abbrev Doc := List (String × List TaskJson)

/-- The serialized form `save_all_tasks` writes for one task:
`{"text": t.text, "done": t.done}` (both fields always present). -/
def taskToJson (t : Task) : TaskJson :=
  ⟨some t.text, some t.done⟩

/-- Embeds `save_all_tasks`'s document: every date key whose bucket is truthy
(non-empty), with its tasks serialized in order. -/
def saveDoc (s : Store) : Doc :=
  (s.filter (fun p => !p.2.isEmpty)).map (fun p => (p.1, p.2.map taskToJson))

/-- Embeds `Task(text=i.get("text", ""), done=bool(i.get("done", False)))`:
missing text coerces to the empty string, missing done to false. -/
def taskFromJson (j : TaskJson) : Task :=
  ⟨j.text.getD "", j.done.getD false⟩

/-- What `_load_all_tasks` finds on disk: no file, a file that fails to
parse into the expected shape, or a parsed document. -/
inductive PersistFile where
  | missing : PersistFile
  | unparsable : PersistFile
  | parsed : Doc → PersistFile
deriving DecidableEq, Repr

/-- Embeds `CalTodoApp._load_all_tasks` acting on the prior mapping `prev`:
a missing file leaves it alone, any parse failure falls back to
`self._tasks_by_date or ` the empty dict, and a parsed document replaces
the mapping entry by entry through `taskFromJson`. -/
def loadAllTasks (prev : Store) : PersistFile → Store
  | .missing => prev
  | .unparsable => if prev.isEmpty then [] else prev
  | .parsed d => d.map (fun p => (p.1, p.2.map taskFromJson))

/-- Embeds `save_all_tasks` with its `try/except pass`: memory is untouched; the
disk receives the serialized document only when the write succeeds. -/
def saveAllTasks (s : Store) (writeOk : Bool) : Store × Option Doc :=
  (s, if writeOk then some (saveDoc s) else none)

/-- Embeds `add_task_for_date` followed by its persistence write. -/
def addTaskFull (s : Store) (d : Date) (text : String) (writeOk : Bool) :
    Store × Option Doc :=
  saveAllTasks (addTaskForDate s d text) writeOk

/-- Embeds `action_toggle_task` followed by its guarded persistence write. -/
def toggleFull (s : Store) (p : PanelState) (writeOk : Bool) :
    Store × PanelState × Option Doc :=
  let (s', p') := actionToggleTask s p
  let (s'', doc) := saveAllTasks s' writeOk
  (s'', p', doc)

/-- Embeds `action_delete_task` followed by its guarded persistence write. -/
def deleteFull (s : Store) (p : PanelState) (writeOk : Bool) :
    Store × PanelState × Option Doc :=
  let (s', p') := actionDeleteTask s p
  let (s'', doc) := saveAllTasks s' writeOk
  (s'', p', doc)

/-- Gregorian leap-year test (`calendar.isleap`). -/
def isLeap (y : Nat) : Bool :=
  y % 4 == 0 && (y % 100 != 0 || y % 400 == 0)

/-- Number of days in a month (`calendar.monthrange` second component). -/
def daysInMonth (y m : Nat) : Nat :=
  if m == 2 then (if isLeap y then 29 else 28)
  else if m == 4 || m == 6 || m == 9 || m == 11 then 30
  else 31

/-- Days in the proleptic Gregorian calendar strictly before year `y`
(year 1 is the first year, as in `datetime.date.toordinal`). -/
def daysBeforeYear (y : Nat) : Nat :=
  365 * (y - 1) + (y - 1) / 4 - (y - 1) / 100 + (y - 1) / 400

/-- Days of year `y` strictly before month `m`. -/
def daysBeforeMonth (y m : Nat) : Nat :=
  (List.range (m - 1)).foldl (fun acc i => acc + daysInMonth y (i + 1)) 0

/-- Weekday of the first day of month `m` of year `y`, Monday = 0 as in
Python's `calendar` module (proleptic Gregorian: 0001-01-01 is a Monday). -/
def firstWeekday (y m : Nat) : Nat :=
  (daysBeforeYear y + daysBeforeMonth y m) % 7

/-- The row/column day grid for a month whose first day falls on weekday
`off` (Monday = 0) and which has `n` days: padding cells are 0 and day `d`
sits at flat position `off + d - 1`, in exactly `ceil((off + n) / 7)`
Monday-start week rows of 7 — the layout `calendar.monthcalendar` yields. -/
def monthGrid (off n : Nat) : List (List Nat) :=
  let nweeks := (off + n + 6) / 7
  (List.range nweeks).map (fun r =>
    (List.range 7).map (fun c =>
      let i := r * 7 + c
      if off ≤ i && i < off + n then i - off + 1 else 0))

/-- Embeds `calendar.monthcalendar(year, month)` with the module's Monday first
weekday, as used by `CalendarTable.reload_month`. -/
def monthcalendar (y m : Nat) : List (List Nat) :=
  monthGrid (firstWeekday y m) (daysInMonth y m)

/-- The `_cell_to_date` value of one grid cell in `reload_month`: day 0 is
a padding cell mapped to no date, any other day to its concrete date. -/
def cellDate (y m day : Nat) : Option Date :=
  if day == 0 then none else some ⟨(y : Int), m, day⟩

/-- Embeds `CalendarTable.reload_month`'s cell-to-date grid, row-major. -/
def reloadMonthCells (y m : Nat) : List (List (Option Date)) :=
  (monthcalendar y m).map (fun row => row.map (cellDate y m))

/-- Embeds `CalendarTable.action_prev_month` on the (year, month) pair. -/
def actionPrevMonth (y : Int) (m : Nat) : Int × Nat :=
  if m = 1 then (y - 1, 12) else (y, m - 1)

/-- Embeds `CalendarTable.action_next_month` on the (year, month) pair. -/
def actionNextMonth (y : Int) (m : Nat) : Int × Nat :=
  if m = 12 then (y + 1, 1) else (y, m + 1)

/-- Iterate a navigation step `n` times. -/
def stepN (f : Int → Nat → Int × Nat) : Nat → Int × Nat → Int × Nat
  | 0, p => p
  | n + 1, p => stepN f n (f p.1 p.2)

/-- The application state the rollover tick touches: the calendar's
displayed year/month, the todo panel, the task store and
`CalTodoApp._last_date`. -/
structure AppState where
  store : Store
  calYear : Int
  calMonth : Nat
  panel : PanelState
  lastDate : Date
deriving DecidableEq, Repr

/-- Embeds `CalendarTable.action_today` plus the `DateSelected` message it posts:
the calendar jumps to today's year/month and the panel is set to today. -/
def actionTodayCal (a : AppState) (today : Date) : AppState :=
  let a1 := { a with calYear := today.year, calMonth := today.month }
  let sp := setDate a1.store a1.panel today
  { a1 with store := sp.1, panel := sp.2 }

/-- Embeds `CalTodoApp._tick_day_change` at system date `today`: when the date
changed, record it, jump the calendar (which also selects today) and set
the panel date again; otherwise do nothing. -/
def tickDayChange (a : AppState) (today : Date) : AppState :=
  if today ≠ a.lastDate then
    let a1 := actionTodayCal { a with lastDate := today } today
    let sp := setDate a1.store a1.panel today
    { a1 with store := sp.1, panel := sp.2 }
  else a

/-! ### Store lemmas -/

example : ((stripStr "   ").isEmpty) = true := by decide
example : (stripStr " buy milk ") = "buy milk" := by decide
example : keyForDate ⟨2024, 3, 15⟩ = "2024-03-15" := by decide

example : monthcalendar 2024 3 =
    [[0, 0, 0, 0, 1, 2, 3], [4, 5, 6, 7, 8, 9, 10],
     [11, 12, 13, 14, 15, 16, 17], [18, 19, 20, 21, 22, 23, 24],
     [25, 26, 27, 28, 29, 30, 31]] := by decide

example : firstWeekday 2024 9 = 6 := by decide

example : stepN actionNextMonth 12 (2023, 11) = (2024, 11) := by decide
example : stepN actionPrevMonth 12 (2023, 11) = (2022, 11) := by decide


theorem lookupStore_cons (p : String × List Task) (s : Store) (k : String) :
    lookupStore (p :: s) k = if p.1 = k then some p.2 else lookupStore s k := by
  by_cases h : p.1 = k <;> simp [lookupStore, List.find?_cons, h]

theorem getTasksList_cons (p : String × List Task) (s : Store) (k : String) :
    getTasksList (p :: s) k = if p.1 = k then p.2 else getTasksList s k := by
  by_cases h : p.1 = k <;> simp [getTasksList, lookupStore_cons, h]

theorem getTasksList_append_nilBucket (s : Store) (k k' : String) :
    getTasksList (s ++ [(k, [])]) k' = getTasksList s k' := by
  induction s with
  | nil =>
      by_cases h : k = k' <;>
        simp [getTasksList_cons, h, getTasksList, lookupStore]
  | cons p s ih =>
      by_cases h : p.1 = k' <;>
        simp [List.cons_append, getTasksList_cons, h, ih]

theorem getTasksList_ensureKey (s : Store) (k k' : String) :
    getTasksList (ensureKey s k) k' = getTasksList s k' := by
  unfold ensureKey
  split
  · rfl
  · exact getTasksList_append_nilBucket s k k'

theorem lookupStore_append_self_isSome (s : Store) (k : String)
    (l : List Task) :
    (lookupStore (s ++ [(k, l)]) k).isSome = true := by
  induction s with
  | nil => simp [lookupStore_cons]
  | cons p s ih =>
      by_cases h : p.1 = k <;>
        simp [List.cons_append, lookupStore_cons, h, ih]

theorem lookupStore_ensureKey_isSome (s : Store) (k : String) :
    (lookupStore (ensureKey s k) k).isSome = true := by
  unfold ensureKey
  split
  · assumption
  · exact lookupStore_append_self_isSome s k []

theorem setBucket_cons (p : String × List Task) (s : Store) (k : String)
    (l : List Task) :
    setBucket (p :: s) k l =
      (if p.1 = k then (p.1, l) else p) :: setBucket s k l := by
  by_cases h : p.1 = k <;> simp [setBucket, h]

theorem getTasksList_setBucket_ne (s : Store) (k k' : String) (l : List Task)
    (h : k ≠ k') :
    getTasksList (setBucket s k l) k' = getTasksList s k' := by
  induction s with
  | nil => rfl
  | cons p s ih =>
      by_cases hp : p.1 = k
      · have hpk : p.1 ≠ k' := by rw [hp]; exact h
        simp [setBucket_cons, hp, getTasksList_cons, hpk, h, ih]
      · simp [setBucket_cons, hp, getTasksList_cons, ih]

theorem getTasksList_setBucket_self (s : Store) (k : String) (l : List Task)
    (h : (lookupStore s k).isSome = true) :
    getTasksList (setBucket s k l) k = l := by
  induction s with
  | nil => simp [lookupStore] at h
  | cons p s ih =>
      by_cases hp : p.1 = k
      · simp [setBucket_cons, hp, getTasksList_cons]
      · rw [lookupStore_cons] at h
        simp only [hp, if_false] at h
        simp [setBucket_cons, hp, getTasksList_cons, ih h]

theorem lookupStore_setBucket_isSome (s : Store) (k k' : String)
    (l : List Task) :
    (lookupStore (setBucket s k l) k').isSome = (lookupStore s k').isSome := by
  induction s with
  | nil => rfl
  | cons p s ih =>
      by_cases hp : p.1 = k <;> by_cases hq : p.1 = k'
      · have hkk : k = k' := hp.symm.trans hq
        simp [setBucket_cons, hp, hq, hkk, lookupStore_cons]
      · have hkk : k ≠ k' := fun hc => hq (hp.trans hc)
        simp [setBucket_cons, hp, lookupStore_cons, hq, hkk, ih]
      · have hkk : k' ≠ k := fun hc => hp (hq.trans hc)
        simp [setBucket_cons, hp, lookupStore_cons, hq, hkk, ih]
      · simp [setBucket_cons, hp, lookupStore_cons, hq, ih]

theorem getTasksList_update (s : Store) (k k' : String) (l : List Task) :
    getTasksList (setBucket (ensureKey s k) k l) k' =
      if k = k' then l else getTasksList s k' := by
  by_cases h : k = k'
  · subst h
    simp [getTasksList_setBucket_self _ _ _ (lookupStore_ensureKey_isSome s k)]
  · rw [getTasksList_setBucket_ne _ _ _ _ h, getTasksList_ensureKey]
    simp [h]

theorem ensureKey_of_isSome (s : Store) (k : String)
    (h : (lookupStore s k).isSome = true) : ensureKey s k = s := by
  unfold ensureKey
  simp [h]

/-! ### toggleAt lemmas -/

theorem toggleAt_length (l : List Task) (i : Nat) :
    (toggleAt l i).length = l.length := by
  induction l generalizing i with
  | nil => rfl
  | cons t ts ih =>
      cases i with
      | zero => simp [toggleAt]
      | succ j => simp [toggleAt, ih]

theorem toggleAt_getElem?_ne (l : List Task) (i j : Nat) (h : i ≠ j) :
    (toggleAt l i)[j]? = l[j]? := by
  induction l generalizing i j with
  | nil => rfl
  | cons t ts ih =>
      cases i with
      | zero =>
          cases j with
          | zero => exact absurd rfl h
          | succ j' => simp [toggleAt]
      | succ i' =>
          cases j with
          | zero => simp [toggleAt]
          | succ j' =>
              simp only [toggleAt, List.getElem?_cons_succ]
              exact ih i' j' (fun hc => h (by rw [hc]))

theorem toggleAt_getElem?_self (l : List Task) (i : Nat) :
    (toggleAt l i)[i]? = l[i]?.map (fun t => { t with done := !t.done }) := by
  induction l generalizing i with
  | nil => rfl
  | cons t ts ih =>
      cases i with
      | zero => simp [toggleAt]
      | succ i' => simp [toggleAt, ih]

theorem toggleAt_toggleAt (l : List Task) (i : Nat) :
    toggleAt (toggleAt l i) i = l := by
  induction l generalizing i with
  | nil => rfl
  | cons t ts ih =>
      cases i with
      | zero => simp [toggleAt]
      | succ i' => simp [toggleAt, ih]

/-! ### Calendar grid lemmas -/

/-- Boolean check of the month-grid layout properties for a first-weekday
offset `off` and month length `n`: row count is the least number of
Monday-start weeks covering the month, rows have 7 cells, each day 1..n
occurs exactly once, and every cell is either 0 (padding) or a day. -/
def gridOKBool (off n : Nat) : Bool :=
  let g := monthGrid off n
  let cells := g.flatten
  (g.length == (off + n + 6) / 7)
  && decide (off + n ≤ 7 * g.length)
  && decide (7 * (g.length - 1) < off + n)
  && g.all (fun row => row.length == 7)
  && (List.range n).all (fun d => cells.count (d + 1) == 1)
  && cells.all (fun c => c == 0 || (1 ≤ c && c ≤ n))

theorem gridOK_valid : ∀ off < 7, ∀ j < 4, gridOKBool off (28 + j) = true := by
  decide

theorem gridOK_spec (off n : Nat) (h : gridOKBool off n = true) :
    (monthGrid off n).length = (off + n + 6) / 7
    ∧ off + n ≤ 7 * (monthGrid off n).length
    ∧ 7 * ((monthGrid off n).length - 1) < off + n
    ∧ (∀ row ∈ monthGrid off n, row.length = 7)
    ∧ (∀ d, 1 ≤ d → d ≤ n → ((monthGrid off n).flatten).count d = 1)
    ∧ (∀ c ∈ (monthGrid off n).flatten, c = 0 ∨ (1 ≤ c ∧ c ≤ n)) := by
  simp only [gridOKBool, Bool.and_eq_true, List.all_eq_true, beq_iff_eq,
    decide_eq_true_eq, Bool.or_eq_true, List.mem_range] at h
  obtain ⟨⟨⟨⟨⟨h1, h2⟩, h3⟩, h4⟩, h5⟩, h6⟩ := h
  refine ⟨h1, h2, h3, h4, ?_, ?_⟩
  · intro d hd1 hd2
    have := h5 (d - 1) (by omega)
    have hd : d - 1 + 1 = d := by omega
    rwa [hd] at this
  · intro c hc
    rcases h6 c hc with h | h
    · exact Or.inl h
    · exact Or.inr ⟨h.1, h.2⟩

theorem daysInMonth_bounds (y m : Nat) (h1 : 1 ≤ m) (h2 : m ≤ 12) :
    28 ≤ daysInMonth y m ∧ daysInMonth y m ≤ 31 := by
  interval_cases m <;> (simp [daysInMonth]; all_goals (split <;> omega))

theorem firstWeekday_lt (y m : Nat) : firstWeekday y m < 7 :=
  Nat.mod_lt _ (by norm_num)

theorem cellDate_injective (y m : Nat) :
    Function.Injective (cellDate y m) := by
  intro a b hab
  unfold cellDate at hab
  by_cases ha : a = 0 <;> by_cases hb : b = 0 <;>
    simp [ha, hb, Date.mk.injEq] at hab <;> omega

theorem cellDate_ne_zero (y m d : Nat) (h : d ≠ 0) :
    cellDate y m d = some ⟨(y : Int), m, d⟩ := by
  simp [cellDate, h]

theorem count_map_cellDate (y m d : Nat) (l : List Nat) :
    (l.map (cellDate y m)).count (cellDate y m d) = l.count d := by
  induction l with
  | nil => rfl
  | cons a t ih =>
      rw [List.map_cons, List.count_cons, List.count_cons, ih]
      by_cases h : a = d
      · simp [h]
      · have hne : cellDate y m a ≠ cellDate y m d :=
          fun hc => h (cellDate_injective y m hc)
        simp [h, hne]

theorem flatten_reloadMonthCells (y m : Nat) :
    (reloadMonthCells y m).flatten =
      ((monthcalendar y m).flatten).map (cellDate y m) := by
  rw [reloadMonthCells, List.map_flatten]

/-- The layout properties claim C4 states of `reload_month`'s grid for a
given year and month. -/
def monthGridSpec (y m : Nat) : Prop :=
  (reloadMonthCells y m).length =
      (firstWeekday y m + daysInMonth y m + 6) / 7
  ∧ firstWeekday y m + daysInMonth y m ≤ 7 * (reloadMonthCells y m).length
  ∧ 7 * ((reloadMonthCells y m).length - 1) <
      firstWeekday y m + daysInMonth y m
  ∧ (∀ row ∈ reloadMonthCells y m, row.length = 7)
  ∧ (∀ d, 1 ≤ d → d ≤ daysInMonth y m →
      ((reloadMonthCells y m).flatten).count (some ⟨(y : Int), m, d⟩) = 1)
  ∧ (∀ c ∈ (reloadMonthCells y m).flatten,
      c = none ∨ ∃ d, 1 ≤ d ∧ d ≤ daysInMonth y m ∧ c = some ⟨(y : Int), m, d⟩)

theorem taskFromJson_taskToJson (t : Task) : taskFromJson (taskToJson t) = t :=
  rfl

theorem map_taskFromJson_taskToJson (l : List Task) :
    (l.map taskToJson).map taskFromJson = l := by
  induction l with
  | nil => rfl
  | cons t ts ih =>
      show taskFromJson (taskToJson t) :: (ts.map taskToJson).map taskFromJson
          = t :: ts
      rw [taskFromJson_taskToJson, ih]

theorem saveDoc_cons (p : String × List Task) (s : Store) :
    saveDoc (p :: s) =
      if p.2.isEmpty then saveDoc s
      else (p.1, p.2.map taskToJson) :: saveDoc s := by
  by_cases hp : p.2.isEmpty <;> simp [saveDoc, List.filter_cons, hp]

/-! ### Claim theorems -/

/-- C1: saving the task mapping and loading the result back yields the
original mapping restricted to the date keys whose buckets are non-empty
(empty buckets are pruned by save), with every surviving task keeping its
text, done flag and position. -/
theorem C1_save_load_roundtrip (m : Store) :
    loadAllTasks [] (PersistFile.parsed (saveDoc m)) =
      m.filter (fun p => !p.2.isEmpty) := by
  induction m with
  | nil => rfl
  | cons p s ih =>
      by_cases hp : p.2.isEmpty
      · rw [saveDoc_cons]
        simp only [hp, if_true, List.filter_cons, Bool.not_true]
        exact ih
      · rw [saveDoc_cons]
        simp only [hp, if_false, List.filter_cons, Bool.not_false]
        show (p.1, (p.2.map taskToJson).map taskFromJson) ::
            loadAllTasks [] (PersistFile.parsed (saveDoc s)) = p :: _
        rw [map_taskFromJson_taskToJson, ih]

/-- C8: loading is tolerant — a missing done field reads as false and a
missing text field as the empty string; a missing file or a parse failure
at startup (empty prior mapping) yields the empty mapping, with no error. -/
theorem C8_load_tolerant (prev : Store) (d : Doc) (i : Nat) (k : String)
    (items : List TaskJson) (hi : d[i]? = some (k, items)) :
    loadAllTasks prev PersistFile.missing = prev
    ∧ loadAllTasks prev PersistFile.unparsable = prev
    ∧ loadAllTasks [] PersistFile.missing = []
    ∧ loadAllTasks [] PersistFile.unparsable = []
    ∧ (loadAllTasks prev (PersistFile.parsed d))[i]? =
        some (k, items.map (fun j =>
          Task.mk (j.text.getD "") (j.done.getD false))) := by
  refine ⟨rfl, ?_, rfl, rfl, ?_⟩
  · cases prev <;> simp [loadAllTasks]
  · simp [loadAllTasks, List.getElem?_map, hi, taskFromJson]

theorem C8_load_tolerant_witness :
    ([(("2024-03-15" : String), [TaskJson.mk none none])] :
        Doc)[0]? = some ("2024-03-15", [TaskJson.mk none none])
    ∧ (loadAllTasks [("x", [Task.mk "keep" true])]
        (PersistFile.parsed [("2024-03-15", [TaskJson.mk none none])]))[0]? =
        some ("2024-03-15", [Task.mk "" false]) :=
  ⟨by decide,
   (C8_load_tolerant [("x", [Task.mk "keep" true])]
      [("2024-03-15", [TaskJson.mk none none])] 0 "2024-03-15"
      [TaskJson.mk none none] (by decide)).2.2.2.2⟩

/-- C9: a failed persistence write is swallowed — for add, toggle and
delete the in-memory mapping ends in the mutated state whether or not the
write succeeds, nothing is rolled back, and only a successful write emits
the serialized document. -/
theorem C9_write_failure_nonfatal (s : Store) (p : PanelState) (d : Date)
    (text : String) (ok : Bool) :
    (addTaskFull s d text ok).1 = addTaskForDate s d text
    ∧ (toggleFull s p ok).1 = (actionToggleTask s p).1
    ∧ (toggleFull s p ok).2.1 = (actionToggleTask s p).2
    ∧ (deleteFull s p ok).1 = (actionDeleteTask s p).1
    ∧ (deleteFull s p ok).2.1 = (actionDeleteTask s p).2
    ∧ (addTaskFull s d text false).2 = none
    ∧ (addTaskFull s d text true).2 =
        some (saveDoc (addTaskForDate s d text)) := by
  refine ⟨rfl, ?_, ?_, ?_, ?_, rfl, rfl⟩ <;>
    simp [toggleFull, deleteFull, saveAllTasks]

theorem clampIdx_lt (h len : Nat) (hlen : len ≠ 0) : clampIdx h len < len := by
  have hl : len - 1 < len := by omega
  exact lt_of_le_of_lt (min_le_right _ _) hl

theorem clampIdx_zero (h : Nat) : clampIdx h 0 = 0 := by
  simp [clampIdx]

theorem actionToggleTask_eq (s : Store) (p : PanelState)
    (hne : getTasksForDate s p.currentDate ≠ []) :
    actionToggleTask s p =
      (setBucket (ensureKey s (keyForDate p.currentDate))
          (keyForDate p.currentDate)
          (toggleAt (getTasksList s (keyForDate p.currentDate))
            (clampIdx p.highlightIndex
              (getTasksList s (keyForDate p.currentDate)).length)),
       p) := by
  have hne' : (getTasksList s (keyForDate p.currentDate)).isEmpty = false :=
    List.isEmpty_eq_false.mpr hne
  rw [actionToggleTask]
  simp [hne']

theorem actionDeleteTask_eq (s : Store) (p : PanelState)
    (hne : getTasksForDate s p.currentDate ≠ []) :
    actionDeleteTask s p =
      (setBucket (ensureKey s (keyForDate p.currentDate))
          (keyForDate p.currentDate)
          ((getTasksList s (keyForDate p.currentDate)).eraseIdx
            (clampIdx p.highlightIndex
              (getTasksList s (keyForDate p.currentDate)).length)),
       ⟨p.currentDate,
        clampIdx p.highlightIndex
          ((getTasksList s (keyForDate p.currentDate)).eraseIdx
            (clampIdx p.highlightIndex
              (getTasksList s (keyForDate p.currentDate)).length)).length⟩) := by
  have hne' : (getTasksList s (keyForDate p.currentDate)).isEmpty = false :=
    List.isEmpty_eq_false.mpr hne
  rw [actionDeleteTask]
  simp [hne']

/-- C3 as stated is false: the store-level `add_task_for_date` performs no
trimming or emptiness check, so adding the all-whitespace text three
spaces, whose strip is empty, mutates the empty mapping. -/
theorem C3_counterexample :
    stripStr "   " = ""
    ∧ addTaskForDate [] ⟨2024, 3, 15⟩ "   " ≠ [] := by
  constructor
  · decide
  · intro h
    have := congrArg List.length h
    simp [addTaskForDate, ensureKey, setBucket, lookupStore] at this

/-- C2 as stated is false: `set_date` keeps the stored highlight index, so
switching from index 2 to a date holding a single task leaves the index at
2, outside the range of the one-task list and non-zero. -/
theorem C2_counterexample :
    ¬ (let sp := setDate [("2024-03-16", [⟨"a", false⟩])]
         ⟨⟨2024, 3, 15⟩, 2⟩ ⟨2024, 3, 16⟩
       let tasks := getTasksForDate sp.1 sp.2.currentDate
       sp.2.highlightIndex < tasks.length
         ∨ (tasks.length = 0 ∧ sp.2.highlightIndex = 0)) := by
  decide

/-- C2 (amended): a delete on a non-empty bucket re-clamps the stored
highlight index into the new range (0 when the bucket empties); toggle and
date-switch leave the stored index unchanged, so it may exceed the new
list's length after a date switch until the next delete re-clamps it
(toggle and delete always act through a clamped copy of the index). -/
theorem C2_highlight_clamp (s : Store) (p : PanelState)
    (hne : getTasksForDate s p.currentDate ≠ []) :
    ((getTasksList (actionDeleteTask s p).1 (keyForDate p.currentDate) = []
        ∧ (actionDeleteTask s p).2.highlightIndex = 0)
      ∨ (actionDeleteTask s p).2.highlightIndex <
          (getTasksList (actionDeleteTask s p).1
            (keyForDate p.currentDate)).length)
    ∧ (actionToggleTask s p).2.highlightIndex = p.highlightIndex
    ∧ (∀ d, (setDate s p d).2.highlightIndex = p.highlightIndex) := by
  refine ⟨?_, ?_, fun d => rfl⟩
  · rw [actionDeleteTask_eq s p hne]
    dsimp only
    rw [getTasksList_update, if_pos rfl]
    by_cases h2 : (getTasksList s (keyForDate p.currentDate)).eraseIdx
        (clampIdx p.highlightIndex
          (getTasksList s (keyForDate p.currentDate)).length) = []
    · left
      refine ⟨h2, ?_⟩
      rw [h2]
      exact clampIdx_zero _
    · right
      exact clampIdx_lt _ _
        (fun hc => h2 (List.eq_nil_of_length_eq_zero hc))
  · rw [actionToggleTask_eq s p hne]

theorem C2_highlight_clamp_witness :
    getTasksForDate [("2024-03-15", [Task.mk "a" false, Task.mk "b" true])]
        ⟨2024, 3, 15⟩ ≠ []
    ∧ ((getTasksList (actionDeleteTask
          [("2024-03-15", [Task.mk "a" false, Task.mk "b" true])]
          ⟨⟨2024, 3, 15⟩, 5⟩).1 (keyForDate ⟨2024, 3, 15⟩) = []
        ∧ (actionDeleteTask
            [("2024-03-15", [Task.mk "a" false, Task.mk "b" true])]
            ⟨⟨2024, 3, 15⟩, 5⟩).2.highlightIndex = 0)
      ∨ (actionDeleteTask
          [("2024-03-15", [Task.mk "a" false, Task.mk "b" true])]
          ⟨⟨2024, 3, 15⟩, 5⟩).2.highlightIndex <
          (getTasksList (actionDeleteTask
            [("2024-03-15", [Task.mk "a" false, Task.mk "b" true])]
            ⟨⟨2024, 3, 15⟩, 5⟩).1 (keyForDate ⟨2024, 3, 15⟩)).length) :=
  ⟨by decide,
   (C2_highlight_clamp [("2024-03-15", [Task.mk "a" false, Task.mk "b" true])]
      ⟨⟨2024, 3, 15⟩, 5⟩ (by decide)).1⟩

/-- C3 (amended): the emptiness guard lives in the submit handler — a
submitted value whose strip is empty leaves the mapping untouched; a value
with non-whitespace content appends exactly one not-done task holding the
stripped text at the end of the current date's bucket and changes no other
bucket (the store-level `add_task_for_date` itself appends
unconditionally). -/
theorem C3_submit_guard (s : Store) (p : PanelState) (value : String) :
    (stripStr value = "" → submitInput s p value = s)
    ∧ (stripStr value ≠ "" →
        getTasksList (submitInput s p value) (keyForDate p.currentDate) =
          getTasksList s (keyForDate p.currentDate)
            ++ [Task.mk (stripStr value) false]
        ∧ ∀ k', k' ≠ keyForDate p.currentDate →
            getTasksList (submitInput s p value) k' = getTasksList s k') := by
  constructor
  · intro h
    rw [submitInput, h, if_pos (by decide : ("" : String).isEmpty = true)]
  · intro h
    have hh : (stripStr value).isEmpty = false := by
      cases hb : (stripStr value).isEmpty
      · rfl
      · exact absurd ((String.isEmpty_iff _).mp hb) h
    rw [submitInput]
    simp only [hh, Bool.false_eq_true, if_false]
    constructor
    · rw [addTaskForDate, getTasksList_update, if_pos rfl]
    · intro k' hk'
      rw [addTaskForDate, getTasksList_update,
        if_neg (fun hc => hk' hc.symm)]

theorem C3_submit_guard_witness :
    stripStr " buy milk " ≠ ""
    ∧ getTasksList (submitInput [] ⟨⟨2024, 3, 15⟩, 0⟩ " buy milk ")
        (keyForDate ⟨2024, 3, 15⟩) =
      getTasksList ([] : Store) (keyForDate ⟨2024, 3, 15⟩)
        ++ [Task.mk "buy milk" false] :=
  ⟨by decide,
   by
    have h := ((C3_submit_guard [] ⟨⟨2024, 3, 15⟩, 0⟩ " buy milk ").2
      (by decide)).1
    rwa [show stripStr " buy milk " = "buy milk" by decide] at h⟩

theorem addTaskForDate_eq (s : Store) (d : Date) (text : String) :
    addTaskForDate s d text =
      setBucket (ensureKey s (keyForDate d)) (keyForDate d)
        (getTasksList s (keyForDate d) ++ [Task.mk text false]) := rfl

theorem actionToggleTask_fst (s : Store) (p : PanelState)
    (hne : getTasksForDate s p.currentDate ≠ []) :
    (actionToggleTask s p).1 =
      setBucket (ensureKey s (keyForDate p.currentDate))
        (keyForDate p.currentDate)
        (toggleAt (getTasksList s (keyForDate p.currentDate))
          (clampIdx p.highlightIndex
            (getTasksList s (keyForDate p.currentDate)).length)) := by
  rw [actionToggleTask_eq s p hne]

theorem actionToggleTask_snd (s : Store) (p : PanelState)
    (hne : getTasksForDate s p.currentDate ≠ []) :
    (actionToggleTask s p).2 = p := by
  rw [actionToggleTask_eq s p hne]

theorem actionDeleteTask_fst (s : Store) (p : PanelState)
    (hne : getTasksForDate s p.currentDate ≠ []) :
    (actionDeleteTask s p).1 =
      setBucket (ensureKey s (keyForDate p.currentDate))
        (keyForDate p.currentDate)
        ((getTasksList s (keyForDate p.currentDate)).eraseIdx
          (clampIdx p.highlightIndex
            (getTasksList s (keyForDate p.currentDate)).length)) := by
  rw [actionDeleteTask_eq s p hne]

/-- C7: toggle changes only the done flag of the task at the clamped index
(text and every other task untouched, positions preserved), delete removes
only the task at the clamped index (earlier tasks keep their positions,
later ones shift down by one, relative order intact), add appends one task
at the end, and none of the three operations touches any other bucket. -/
theorem C7_order_preserved (s : Store) (p : PanelState) (l : List Task)
    (idx : Nat) (hl : l = getTasksForDate s p.currentDate)
    (hidx : idx = clampIdx p.highlightIndex l.length) (hne : l ≠ []) :
    getTasksList (actionToggleTask s p).1 (keyForDate p.currentDate) =
        toggleAt l idx
    ∧ (toggleAt l idx).length = l.length
    ∧ (∀ j, j ≠ idx → (toggleAt l idx)[j]? = l[j]?)
    ∧ (toggleAt l idx)[idx]?.map Task.text = l[idx]?.map Task.text
    ∧ (toggleAt l idx)[idx]?.map Task.done = l[idx]?.map (fun t => !t.done)
    ∧ getTasksList (actionDeleteTask s p).1 (keyForDate p.currentDate) =
        l.eraseIdx idx
    ∧ (l.eraseIdx idx).length = l.length - 1
    ∧ (∀ j, j < idx → (l.eraseIdx idx)[j]? = l[j]?)
    ∧ (∀ j, idx ≤ j → (l.eraseIdx idx)[j]? = l[j + 1]?)
    ∧ (∀ text, getTasksList (addTaskForDate s p.currentDate text)
        (keyForDate p.currentDate) = l ++ [Task.mk text false])
    ∧ (∀ k', k' ≠ keyForDate p.currentDate →
        getTasksList (actionToggleTask s p).1 k' = getTasksList s k'
        ∧ getTasksList (actionDeleteTask s p).1 k' = getTasksList s k'
        ∧ ∀ text, getTasksList (addTaskForDate s p.currentDate text) k' =
            getTasksList s k') := by
  have hne0 : getTasksForDate s p.currentDate ≠ [] := hl ▸ hne
  have hl' : l = getTasksList s (keyForDate p.currentDate) := hl
  have hidxlt : idx < l.length := by
    rw [hidx]
    exact clampIdx_lt _ _ (fun hc => hne (List.eq_nil_of_length_eq_zero hc))
  refine ⟨?_, toggleAt_length l idx, ?_, ?_, ?_, ?_, ?_, ?_, ?_, ?_, ?_⟩
  · rw [actionToggleTask_fst s p hne0, getTasksList_update, if_pos rfl,
      ← hl', ← hidx]
  · intro j hj
    exact toggleAt_getElem?_ne l idx j (fun hc => hj hc.symm)
  · rw [toggleAt_getElem?_self]
    cases l[idx]? <;> rfl
  · rw [toggleAt_getElem?_self]
    cases l[idx]? <;> rfl
  · rw [actionDeleteTask_fst s p hne0, getTasksList_update, if_pos rfl,
      ← hl', ← hidx]
  · rw [List.length_eraseIdx, if_pos hidxlt]
  · intro j hj
    rw [List.getElem?_eraseIdx, if_pos hj]
  · intro j hj
    rw [List.getElem?_eraseIdx, if_neg (by omega)]
  · intro text
    rw [addTaskForDate_eq, getTasksList_update, if_pos rfl, ← hl']
  · intro k' hk'
    refine ⟨?_, ?_, ?_⟩
    · rw [actionToggleTask_fst s p hne0, getTasksList_update,
        if_neg (fun hc => hk' hc.symm)]
    · rw [actionDeleteTask_fst s p hne0, getTasksList_update,
        if_neg (fun hc => hk' hc.symm)]
    · intro text
      rw [addTaskForDate_eq, getTasksList_update,
        if_neg (fun hc => hk' hc.symm)]

theorem C7_order_preserved_witness :
    ([Task.mk "a" false, Task.mk "b" true] =
      getTasksForDate [("2024-03-15", [Task.mk "a" false, Task.mk "b" true])]
        (⟨2024, 3, 15⟩ : Date))
    ∧ getTasksList (actionToggleTask
        [("2024-03-15", [Task.mk "a" false, Task.mk "b" true])]
        ⟨⟨2024, 3, 15⟩, 1⟩).1 (keyForDate ⟨2024, 3, 15⟩) =
      toggleAt [Task.mk "a" false, Task.mk "b" true] 1 :=
  ⟨by decide,
   (C7_order_preserved [("2024-03-15", [Task.mk "a" false, Task.mk "b" true])]
      ⟨⟨2024, 3, 15⟩, 1⟩ [Task.mk "a" false, Task.mk "b" true] 1
      (by decide) (by decide) (by decide)).1⟩

/-- C10: toggling the highlighted task twice with the same highlighted
index and no intervening operation restores every bucket of the store to
its original observable content and leaves the panel state unchanged. -/
theorem C10_toggle_involution (s : Store) (p : PanelState)
    (hne : getTasksForDate s p.currentDate ≠ []) :
    (∀ k', getTasksList (actionToggleTask (actionToggleTask s p).1
        (actionToggleTask s p).2).1 k' = getTasksList s k')
    ∧ (actionToggleTask (actionToggleTask s p).1
        (actionToggleTask s p).2).2 = p := by
  have hne0 : getTasksList s (keyForDate p.currentDate) ≠ [] := hne
  have hsnd1 : (actionToggleTask s p).2 = p := actionToggleTask_snd s p hne
  have hfst1 := actionToggleTask_fst s p hne
  have hbucket : getTasksList (actionToggleTask s p).1
      (keyForDate p.currentDate) =
      toggleAt (getTasksList s (keyForDate p.currentDate))
        (clampIdx p.highlightIndex
          (getTasksList s (keyForDate p.currentDate)).length) := by
    rw [hfst1, getTasksList_update, if_pos rfl]
  have hne1 : getTasksForDate (actionToggleTask s p).1 p.currentDate ≠ [] := by
    show getTasksList (actionToggleTask s p).1 (keyForDate p.currentDate) ≠ []
    rw [hbucket]
    intro hc
    have hlen := congrArg List.length hc
    rw [toggleAt_length] at hlen
    exact hne0 (List.eq_nil_of_length_eq_zero hlen)
  have hfst2 := actionToggleTask_fst (actionToggleTask s p).1 p hne1
  rw [hbucket, toggleAt_length, toggleAt_toggleAt] at hfst2
  have hsome1 : (lookupStore (actionToggleTask s p).1
      (keyForDate p.currentDate)).isSome = true := by
    rw [hfst1, lookupStore_setBucket_isSome]
    exact lookupStore_ensureKey_isSome s (keyForDate p.currentDate)
  rw [ensureKey_of_isSome _ _ hsome1] at hfst2
  constructor
  · intro k'
    rw [hsnd1, hfst2]
    by_cases hk' : keyForDate p.currentDate = k'
    · rw [← hk', getTasksList_setBucket_self _ _ _ hsome1]
    · rw [getTasksList_setBucket_ne _ _ _ _ hk', hfst1,
        getTasksList_setBucket_ne _ _ _ _ hk', getTasksList_ensureKey]
  · rw [hsnd1]
    exact actionToggleTask_snd _ p hne1

theorem C10_toggle_involution_witness :
    getTasksForDate [("2024-03-15", [Task.mk "a" false, Task.mk "b" true])]
        (⟨2024, 3, 15⟩ : Date) ≠ []
    ∧ ∀ k', getTasksList (actionToggleTask (actionToggleTask
        [("2024-03-15", [Task.mk "a" false, Task.mk "b" true])]
        ⟨⟨2024, 3, 15⟩, 0⟩).1 (actionToggleTask
        [("2024-03-15", [Task.mk "a" false, Task.mk "b" true])]
        ⟨⟨2024, 3, 15⟩, 0⟩).2).1 k' =
      getTasksList [("2024-03-15", [Task.mk "a" false, Task.mk "b" true])] k' :=
  ⟨by decide,
   (C10_toggle_involution
      [("2024-03-15", [Task.mk "a" false, Task.mk "b" true])]
      ⟨⟨2024, 3, 15⟩, 0⟩ (by decide)).1⟩

/-- C4: for every year and month the rebuilt grid has exactly the number
of Monday-start week rows needed to cover the month (and no more), each
row has 7 cells, every day 1..N of the month appears in exactly one cell,
and every other cell is a padding cell holding no date. -/
theorem C4_month_grid (y m : Nat) (_hy : 1 ≤ y) (hm1 : 1 ≤ m)
    (hm2 : m ≤ 12) : monthGridSpec y m := by
  obtain ⟨hn1, hn2⟩ := daysInMonth_bounds y m hm1 hm2
  have hoff := firstWeekday_lt y m
  have hok : gridOKBool (firstWeekday y m) (daysInMonth y m) = true := by
    have hv := gridOK_valid (firstWeekday y m) hoff
      (daysInMonth y m - 28) (by omega)
    rwa [show 28 + (daysInMonth y m - 28) = daysInMonth y m by omega] at hv
  obtain ⟨g1, g2, g3, g4, g5, g6⟩ := gridOK_spec _ _ hok
  have hcal : monthcalendar y m =
      monthGrid (firstWeekday y m) (daysInMonth y m) := rfl
  refine ⟨?_, ?_, ?_, ?_, ?_, ?_⟩
  · rw [reloadMonthCells, List.length_map, hcal, g1]
  · rw [reloadMonthCells, List.length_map, hcal]
    exact g2
  · rw [reloadMonthCells, List.length_map, hcal]
    exact g3
  · intro row hrow
    rw [reloadMonthCells] at hrow
    obtain ⟨row0, hrow0, hmap⟩ := List.mem_map.mp hrow
    rw [← hmap, List.length_map]
    exact g4 row0 (hcal ▸ hrow0)
  · intro d hd1 hd2
    rw [flatten_reloadMonthCells, ← cellDate_ne_zero y m d (by omega),
      count_map_cellDate, hcal]
    exact g5 d hd1 hd2
  · intro c hc
    rw [flatten_reloadMonthCells] at hc
    obtain ⟨v, hv, hvc⟩ := List.mem_map.mp hc
    rcases g6 v (hcal ▸ hv) with h0 | ⟨h1, h2⟩
    · left
      rw [← hvc, h0]
      rfl
    · right
      exact ⟨v, h1, h2, by rw [← hvc, cellDate_ne_zero y m v (by omega)]⟩

theorem C4_month_grid_witness : 1 ≤ 2024 ∧ monthGridSpec 2024 2 :=
  ⟨by norm_num, C4_month_grid 2024 2 (by norm_num) (by norm_num) (by norm_num)⟩

/-- The month/year navigation properties claim C5 states, at displayed
year `y` and month `m`. -/
def navSpec (y : Int) (m : Nat) : Prop :=
  actionPrevMonth y 1 = (y - 1, 12)
  ∧ actionNextMonth y 12 = (y + 1, 1)
  ∧ stepN actionNextMonth 12 (y, m) = (y + 1, m)
  ∧ stepN actionPrevMonth 12 (y, m) = (y - 1, m)
  ∧ 1 ≤ (actionNextMonth y m).2 ∧ (actionNextMonth y m).2 ≤ 12
  ∧ 1 ≤ (actionPrevMonth y m).2 ∧ (actionPrevMonth y m).2 ≤ 12

/-- C5: month navigation carry arithmetic is exact — stepping back from
month 1 gives month 12 of the previous year, stepping forward from month
12 gives month 1 of the next year, twelve forward (backward) steps return
to the same month one year later (earlier), and each single step keeps the
month within 1..12. -/
theorem C5_navigation (y : Int) (m : Nat) (h1 : 1 ≤ m) (h2 : m ≤ 12) :
    navSpec y m := by
  unfold navSpec
  interval_cases m <;>
    (refine ⟨rfl, rfl, ?_, ?_, by norm_num [actionNextMonth],
        by norm_num [actionNextMonth], by norm_num [actionPrevMonth],
        by norm_num [actionPrevMonth]⟩ <;>
      simp [stepN, actionNextMonth, actionPrevMonth])

theorem C5_navigation_witness : 1 ≤ 6 ∧ navSpec 2024 6 :=
  ⟨by norm_num, C5_navigation 2024 6 (by norm_num) (by norm_num)⟩

/-- C6: the rollover tick jumps to today and records the observed date
exactly when the system date differs from the last observed one; a tick
with an unchanged date leaves the whole application state untouched, so an
immediate second tick after a rollover is a no-op. -/
theorem C6_rollover (a : AppState) (today : Date) :
    (today ≠ a.lastDate →
      tickDayChange a today =
        AppState.mk (ensureKey a.store (keyForDate today)) today.year
          today.month ⟨today, a.panel.highlightIndex⟩ today)
    ∧ (today = a.lastDate → tickDayChange a today = a)
    ∧ tickDayChange (tickDayChange a today) today = tickDayChange a today := by
  have hjump2 : today ≠ a.lastDate →
      tickDayChange a today =
        AppState.mk (ensureKey (ensureKey a.store (keyForDate today))
            (keyForDate today)) today.year
          today.month ⟨today, a.panel.highlightIndex⟩ today := by
    intro h
    rw [tickDayChange, if_pos h]
    rfl
  have hjump : today ≠ a.lastDate →
      tickDayChange a today =
        AppState.mk (ensureKey a.store (keyForDate today)) today.year
          today.month ⟨today, a.panel.highlightIndex⟩ today := by
    intro h
    rw [hjump2 h, ensureKey_of_isSome _ _ (lookupStore_ensureKey_isSome _ _)]
  have hskip : today = a.lastDate → tickDayChange a today = a := by
    intro h
    rw [tickDayChange, if_neg (fun hc => hc h)]
  refine ⟨hjump, hskip, ?_⟩
  by_cases h : today = a.lastDate
  · rw [hskip h, hskip h]
  · rw [hjump h]
    rw [tickDayChange, if_neg (fun hc => hc rfl)]

theorem C6_rollover_witness :
    (⟨2024, 3, 16⟩ : Date) ≠
      (AppState.mk [] 2024 3 ⟨⟨2024, 3, 15⟩, 0⟩ ⟨2024, 3, 15⟩).lastDate
    ∧ tickDayChange (AppState.mk [] 2024 3 ⟨⟨2024, 3, 15⟩, 0⟩ ⟨2024, 3, 15⟩)
        ⟨2024, 3, 16⟩ =
      AppState.mk (ensureKey [] (keyForDate ⟨2024, 3, 16⟩)) (2024 : Int) 3
        ⟨⟨2024, 3, 16⟩, 0⟩ ⟨2024, 3, 16⟩ :=
  ⟨by decide,
   (C6_rollover (AppState.mk [] 2024 3 ⟨⟨2024, 3, 15⟩, 0⟩ ⟨2024, 3, 15⟩)
      ⟨2024, 3, 16⟩).1 (by decide)⟩

end CalTodo
